import Mathlib

/-!
Shallow embedding of `src/backup.py` (jomag/backup-service): a
configuration-driven orchestrator for the external `restic` backup engine.

The process environment (`os.environ`, plus the child environment handed to
`subprocess.run`) is modelled as an ordered association list mirroring
Python dict semantics.  The external engine is modelled by a behaviour
function from the spawned call (argument vector plus child environment) to
an outcome (exit code, or executable not found).  Python exceptions and
`sys.exit` are modelled with an explicit error type; each orchestrator
returns its result together with the trace of engine calls it spawned and
the process environment after the run.
-/

/-- Ordered key-value mapping modelling a Python dict / `os.environ`. -/
abbrev Env := List (String × String)

/-- Dict lookup: value at the first matching key. -/
def envGet : Env → String → Option String
  | [], _ => none
  | (k2, v) :: rest, k => if k2 = k then some v else envGet rest k

/-- Dict assignment `d[k] = v`: overwrite in place, else append. -/
def envSet : Env → String → String → Env
  | [], k, v => [(k, v)]
  | (k2, v2) :: rest, k, v =>
    if k2 = k then (k2, v) :: rest else (k2, v2) :: envSet rest k v

/-- `dict.copy()`: a value copy of the mapping. -/
def envCopy (e : Env) : Env := e

/-- Python truthiness of an optional string: `None` and `""` are falsy. -/
def truthy : Option String → Bool
  | none => false
  | some s => !(s == "")

/-- The ways an operation can fail, mirroring the exceptions of
`backup.py`: `ResticError` (engine ran, nonzero exit), `RepositoryError`
(location cannot be resolved), and `fatal_error` / `sys.exit` (process
termination, used for a missing password environment variable and for a
missing engine executable). -/
inductive PyError where
  | resticError (command : String) (retval : Int)
  | repositoryError (message : String)
  | fatalExit (code : Nat)
deriving DecidableEq, Repr

/-- Is this error a `ResticError` (the only class `cmd_init` catches)? -/
def PyError.isRestic : PyError → Bool
  | .resticError _ _ => true
  | _ => false

/-- Outcome of attempting to spawn the engine: it ran and exited with a
code, or the executable could not be found (`FileNotFoundError`). -/
inductive EngineOutcome where
  | exit (code : Int)
  | notFound
deriving DecidableEq, Repr

/-- One spawned engine process: the argument vector handed to
`subprocess.run` and the child environment. -/
structure EngineCall where
  cmd : List String
  env : Env
deriving DecidableEq, Repr

/-- The external engine as an oracle from the spawned call to its outcome. -/
abbrev EngineBehavior := EngineCall → EngineOutcome

/-- Translation of the outcome of `subprocess.run` inside `restic(...)`:
`FileNotFoundError` becomes `fatal_error` (process exit), exit code 0 is
success, and a nonzero exit raises `ResticError`. -/
def resticOutcome (beh : EngineBehavior) (call : EngineCall) (command : String) :
    Except PyError Unit :=
  match beh call with
  | .notFound => .error (.fatalExit 1)
  | .exit code => if code = 0 then .ok () else .error (.resticError command code)

/-- The process spawned by `restic(...)`: the argument vector
`["restic", "-r", url, command, *args]` (plus the sftp identity option
when an identity file is configured), and the child environment obtained
by copying the process environment and injecting `RESTIC_PASSWORD` into
the copy. -/
def resticCall (environ : Env) (url password command : String)
    (args : List String) (identity_file : Option String) : EngineCall :=
  let baseCmd := ["restic", "-r", url, command] ++ args
  let childEnv := envSet (envCopy environ) "RESTIC_PASSWORD" password
  { cmd := if truthy identity_file
      then baseCmd ++ ["-o", "sftp.args=-i " ++ identity_file.getD ""]
      else baseCmd,
    env := childEnv }

/-- The `restic(url, password, command, args, identity_file)` invoker:
builds the call and spawns the engine.  Returns the result, the spawned
call, and the process environment after the invocation. -/
def restic (beh : EngineBehavior) (environ : Env) (url password command : String)
    (args : List String) (identity_file : Option String) :
    Except PyError Unit × EngineCall × Env :=
  let call := resticCall environ url password command args identity_file
  (resticOutcome beh call command, call, environ)

/-- The `Repository` pydantic model of `backup.py`. -/
structure Repository where
  name : String
  description : String
  method : String := "local"
  path : Option String := none
  password : Option String := none
  password_env : Option String := none
  host : Option String := none
  user : Option String := none
  identity_file : Option String := none
deriving DecidableEq, Repr

/-- `Repository.get_password`: the inline `password` field when set; else
the environment variable named by `password_env` when that is set (a
missing variable reaches `fatal_error`, i.e. `sys.exit(1)`); else the
hardcoded fallback `"123"`. -/
def Repository.get_password (r : Repository) (environ : Env) : Except PyError String :=
  match r.password with
  | some p => .ok p
  | none =>
    match r.password_env with
    | some v =>
      match envGet environ v with
      | some value => .ok value
      | none => .error (.fatalExit 1)
    | none => .ok "123"

/-- `Repository.get_url`: location resolution from the descriptor fields
(pure; raises `RepositoryError` on a missing path, a missing sftp host,
or an unsupported method). -/
def Repository.get_url (r : Repository) : Except PyError String :=
  if r.method = "local" then
    if truthy r.path then .ok (r.path.getD "")
    else .error (.repositoryError ("No path set for local repository " ++ r.name))
  else if r.method = "sftp" then
    if truthy r.path = false then
      .error (.repositoryError ("No path set for SFTP repository " ++ r.name))
    else if truthy r.host = false then
      .error (.repositoryError ("No host set for SFTP repository " ++ r.name))
    else if truthy r.user then
      .ok ("sftp:" ++ r.user.getD "" ++ "@" ++ r.host.getD "" ++ ":" ++ r.path.getD "")
    else
      .ok ("sftp:" ++ r.host.getD "" ++ ":" ++ r.path.getD "")
  else
    .error (.repositoryError ("Unsupported repository access method: " ++ r.method))

/-- `Repository._restic(cmd, args)`: resolve the url, then the password
(in that argument-evaluation order), then invoke the engine.  Returns the
result, the list of engine calls spawned (empty when resolution fails
before any subprocess is spawned), and the process environment after. -/
def Repository.runRestic (r : Repository) (beh : EngineBehavior) (environ : Env)
    (command : String) (args : List String) :
    Except PyError Unit × List EngineCall × Env :=
  match r.get_url with
  | .error e => (.error e, [], environ)
  | .ok url =>
    match r.get_password environ with
    | .error e => (.error e, [], environ)
    | .ok pw =>
      match restic beh environ url pw command args r.identity_file with
      | (res, call, env2) => (res, [call], env2)

/-- Argument list of `Repository.backup`: the source paths, followed by
`--host <tag>` when the host tag is truthy. -/
def backupArgs (paths : List String) (host : Option String) : List String :=
  paths ++ (if truthy host then ["--host", host.getD ""] else [])

/-- The `Operation` pydantic model of `backup.py` (one backup job). -/
structure Operation where
  host : Option String := none
  path : String
  description : String
  repos : List String
deriving DecidableEq, Repr

/-- One step of the grouping loop of `cmd_backup`: append job `b` to the
entry of `backups_by_host` keyed by `b.host`, creating the entry at the
end when the key is new (Python dict insertion-order semantics). -/
def insertJob : List (Option String × List Operation) → Operation →
    List (Option String × List Operation)
  | [], b => [(b.host, [b])]
  | (h, g) :: rest, b =>
    if h = b.host then (h, g ++ [b]) :: rest else (h, g) :: insertJob rest b

/-- The `backups_by_host` grouping built by `cmd_backup`. -/
def group_by_host (backups : List Operation) : List (Option String × List Operation) :=
  backups.foldl insertJob []

/-- Lookup in the grouping (first entry with the given key). -/
def lookupGroup (h : Option String) : List (Option String × List Operation) →
    Option (List Operation)
  | [] => none
  | (h2, g) :: rest => if h2 = h then some g else lookupGroup h rest

/-- Inner loop of `cmd_backup` for one repository: walk the host groups in
insertion order; for each, filter the jobs whose `repos` contain the
repository name, and invoke `repo.backup(paths, host=host)`.  An uncaught
error aborts the remaining groups. -/
def backupHosts (beh : EngineBehavior) (environ : Env) (repo : Repository) :
    List (Option String × List Operation) → Except PyError Unit × List EngineCall × Env
  | [] => (.ok (), [], environ)
  | (h, js) :: rest =>
    let paths := (js.filter (fun b => b.repos.contains repo.name)).map Operation.path
    match repo.runRestic beh environ "backup" (backupArgs paths h) with
    | (.ok _, t, env2) =>
      match backupHosts beh env2 repo rest with
      | (res, t2, env3) => (res, t ++ t2, env3)
    | (.error e, t, env2) => (.error e, t, env2)

/-- Outer loop of `cmd_backup` over the declared repositories.  An
uncaught error aborts the remaining repositories. -/
def backupRepos (beh : EngineBehavior) (environ : Env)
    (groups : List (Option String × List Operation)) :
    List Repository → Except PyError Unit × List EngineCall × Env
  | [] => (.ok (), [], environ)
  | r :: rest =>
    match backupHosts beh environ r groups with
    | (.ok _, t, env2) =>
      match backupRepos beh env2 groups rest with
      | (res, t2, env3) => (res, t ++ t2, env3)
    | (.error e, t, env2) => (.error e, t, env2)

/-- `cmd_backup`: group the jobs by host, then for every repository and
every host group invoke the engine backup (no health check, no retry, no
exception handling). -/
def cmd_backup (beh : EngineBehavior) (environ : Env) (repos : List Repository)
    (backups : List Operation) : Except PyError Unit × List EngineCall × Env :=
  backupRepos beh environ (group_by_host backups) repos

/-- `cmd_init`: attempt `restic init` for every repository, catching only
`ResticError` (collected into the failure list); any other error
propagates and aborts the batch.  Returns the success and failure name
lists in declaration order. -/
def cmd_init (beh : EngineBehavior) (environ : Env) :
    List Repository → Except PyError (List String × List String) × List EngineCall × Env
  | [] => (.ok ([], []), [], environ)
  | r :: rest =>
    match r.runRestic beh environ "init" [] with
    | (.ok _, t, env2) =>
      match cmd_init beh env2 rest with
      | (.ok sf, t2, env3) => (.ok (r.name :: sf.1, sf.2), t ++ t2, env3)
      | (.error e, t2, env3) => (.error e, t ++ t2, env3)
    | (.error e, t, env2) =>
      if e.isRestic then
        match cmd_init beh env2 rest with
        | (.ok sf, t2, env3) => (.ok (sf.1, r.name :: sf.2), t ++ t2, env3)
        | (.error e2, t2, env3) => (.error e2, t ++ t2, env3)
      else (.error e, t, env2)

/-- `cmd_check`: run `restic check` for every repository with no exception
handling at all; the first error propagates and aborts the batch. -/
def cmd_check (beh : EngineBehavior) (environ : Env) :
    List Repository → Except PyError Unit × List EngineCall × Env
  | [] => (.ok (), [], environ)
  | r :: rest =>
    match r.runRestic beh environ "check" [] with
    | (.ok _, t, env2) =>
      match cmd_check beh env2 rest with
      | (res, t2, env3) => (res, t ++ t2, env3)
    | (.error e, t, env2) => (.error e, t, env2)

/-- Engine behaviour that succeeds on every call. -/
def behOk : EngineBehavior := fun _ => .exit 0

/-- Engine behaviour that fails on every call. -/
def behFail : EngineBehavior := fun _ => .exit 1

/-- Engine behaviour that fails every command except `backup`. -/
def behNoBk : EngineBehavior := fun c =>
  if c.cmd[3]? = some "backup" then .exit 0 else .exit 1

/-- Repository `A` of the end-to-end scenario of the spec. -/
def repoA : Repository := { name := "A", description := "", path := some "/backup/a" }

/-- Repository `B` of the end-to-end scenario of the spec. -/
def repoB : Repository :=
  { name := "B", description := "", method := "sftp", path := some "/b",
    host := some "h.example", user := some "u" }

/-- Job 1 of the end-to-end scenario: `/data/x` to `A` and `B`, no host. -/
def job1 : Operation := { path := "/data/x", description := "", repos := ["A", "B"] }

/-- Job 2 of the end-to-end scenario: `/data/y` to `B`, host `prod`. -/
def job2 : Operation :=
  { host := some "prod", path := "/data/y", description := "", repos := ["B"] }

/-- Variant of repository `B` with no `user` field. -/
def repoB0 : Repository :=
  { name := "B0", description := "", method := "sftp", path := some "/b",
    host := some "h.example" }

/-- A minimal local repository used in single-repository scenarios. -/
def repoR : Repository := { name := "r", description := "", path := some "/r" }

/-- A second minimal local repository. -/
def repoR2 : Repository := { name := "r2", description := "", path := some "/r2" }

/-- A repository whose secret comes only from the (possibly missing)
environment variable `BACKUP_PW`. -/
def repoPw : Repository :=
  { name := "p", description := "", path := some "/p", password_env := some "BACKUP_PW" }

/-- A repository with an unsupported access method. -/
def repoBadM : Repository :=
  { name := "bad", description := "", method := "ftp", path := some "/x" }

/-- A single job backing `/d` up to repository `r`, with no host tag. -/
def jobJ : Operation := { path := "/d", description := "", repos := ["r"] }

/-- A repository with an inline password. -/
def repoInline : Repository :=
  { name := "i", description := "", path := some "/i", password := some "pw1" }

/-- Result classifier: did the operation fail with a `ResticError`? -/
def isResticFail : Except PyError Unit → Bool
  | .error e => e.isRestic
  | .ok _ => false

/-- Tests whether location resolution failed with a `RepositoryError`. -/
def isRepoErr : Except PyError String → Bool
  | .error (.repositoryError _) => true
  | _ => false

/-- The distinct values of a list in order of first appearance (the key
order of a Python dict built by insertion). -/
def dedupFirst (l : List (Option String)) : List (Option String) :=
  l.foldl (fun acc h => if acc.contains h then acc else acc ++ [h]) []

/-- Combine the group accumulated so far (if any) with the members still
to be appended by the remaining fold steps. -/
def combineOpt : Option (List Operation) → List Operation → Option (List Operation)
  | none, [] => none
  | none, l => some l
  | some g, l => some (g ++ l)

/-- A repository whose url is `/k`, used as the designated failing
repository. -/
def repoK : Repository := { name := "k", description := "", path := some "/k" }

/-- Engine behaviour that fails exactly the calls against location `/k`. -/
def behK : EngineBehavior := fun c =>
  if c.cmd[2]? = some "/k" then .exit 1 else .exit 0

theorem restic_call (beh : EngineBehavior) (environ : Env) (url pw command : String)
    (args : List String) (idf : Option String) :
    (restic beh environ url pw command args idf).2.1 =
      resticCall environ url pw command args idf := rfl

theorem restic_environ (beh : EngineBehavior) (environ : Env) (url pw command : String)
    (args : List String) (idf : Option String) :
    (restic beh environ url pw command args idf).2.2 = environ := rfl

theorem runRestic_err_url {r : Repository} {e : PyError} (hu : r.get_url = .error e)
    (beh : EngineBehavior) (environ : Env) (command : String) (args : List String) :
    r.runRestic beh environ command args = (.error e, [], environ) := by
  unfold Repository.runRestic
  rw [hu]

theorem runRestic_err_pw {r : Repository} {url : String} {e : PyError} {environ : Env}
    (hu : r.get_url = .ok url) (hp : r.get_password environ = .error e)
    (beh : EngineBehavior) (command : String) (args : List String) :
    r.runRestic beh environ command args = (.error e, [], environ) := by
  unfold Repository.runRestic
  rw [hu, hp]

theorem runRestic_resolved {r : Repository} {url pw : String} {environ : Env}
    (hu : r.get_url = .ok url) (hp : r.get_password environ = .ok pw)
    (beh : EngineBehavior) (command : String) (args : List String) :
    r.runRestic beh environ command args =
      (resticOutcome beh (resticCall environ url pw command args r.identity_file) command,
       [resticCall environ url pw command args r.identity_file], environ) := by
  unfold Repository.runRestic
  rw [hu, hp]
  rfl

theorem runRestic_environ (r : Repository) (beh : EngineBehavior) (environ : Env)
    (command : String) (args : List String) :
    (r.runRestic beh environ command args).2.2 = environ := by
  unfold Repository.runRestic
  cases hu : r.get_url with
  | error e => rfl
  | ok url =>
    cases hp : r.get_password environ with
    | error e => rfl
    | ok pw => rfl

theorem get_url_err_isRestic {r : Repository} {e : PyError}
    (h : r.get_url = .error e) : e.isRestic = false := by
  unfold Repository.get_url at h
  split_ifs at h <;>
    first
      | exact Except.noConfusion h
      | (injection h with h2; subst h2; rfl)

theorem get_password_err_isRestic {r : Repository} {environ : Env} {e : PyError}
    (h : r.get_password environ = .error e) : e.isRestic = false := by
  unfold Repository.get_password at h
  split at h
  · exact Except.noConfusion h
  · split at h
    · split at h
      · exact Except.noConfusion h
      · injection h with h2
        subst h2
        rfl
    · exact Except.noConfusion h

theorem runRestic_trace_of_engine (r : Repository) (beh : EngineBehavior) (environ : Env)
    (command : String) (args : List String)
    (h : (r.runRestic beh environ command args).1 = .ok () ∨
         isResticFail (r.runRestic beh environ command args).1 = true) :
    ∃ url pw, r.get_url = .ok url ∧ r.get_password environ = .ok pw ∧
      (r.runRestic beh environ command args).2.1 =
        [resticCall environ url pw command args r.identity_file] := by
  cases hu : r.get_url with
  | error e =>
    rw [runRestic_err_url hu beh environ command args] at h
    rcases h with h | h
    · exact Except.noConfusion h
    · simp [isResticFail, get_url_err_isRestic hu] at h
  | ok url =>
    cases hp : r.get_password environ with
    | error e =>
      rw [runRestic_err_pw hu hp beh command args] at h
      rcases h with h | h
      · exact Except.noConfusion h
      · simp [isResticFail, get_password_err_isRestic hp] at h
    | ok pw =>
      exact ⟨url, pw, rfl, rfl, by rw [runRestic_resolved hu hp]⟩

theorem resticCall_cmd_get (environ : Env) (url pw command : String)
    (args : List String) (idf : Option String) :
    (resticCall environ url pw command args idf).cmd[3]? = some command := by
  unfold resticCall
  cases truthy idf <;> simp

theorem envGet_set_ne (e : Env) (k k2 v : String) (h : k2 ≠ k) :
    envGet (envSet e k v) k2 = envGet e k2 := by
  induction e with
  | nil => simp [envSet, envGet, Ne.symm h]
  | cons a rest ih =>
    obtain ⟨a1, a2⟩ := a
    by_cases h1 : a1 = k
    · subst h1
      simp [envSet, envGet, Ne.symm h]
    · by_cases h2 : a1 = k2 <;> simp [envSet, envGet, h1, h2, h, ih]

/-- Claim C9: for every engine invocation the secret never appears in the
constructed argument vector: the vector is identical for any two values
of the secret, and the secret reaches the child process only through the
`RESTIC_PASSWORD` entry of the child environment. -/
theorem claim9_secret_not_on_cmdline (beh : EngineBehavior) (environ : Env)
    (url pw1 pw2 command : String) (args : List String) (idf : Option String) :
    (restic beh environ url pw1 command args idf).2.1.cmd =
      (restic beh environ url pw2 command args idf).2.1.cmd ∧
    (restic beh environ url pw1 command args idf).2.1.env =
      envSet (envCopy environ) "RESTIC_PASSWORD" pw1 :=
  ⟨rfl, rfl⟩

/-- Claim C10: invoking the engine never mutates the parent process
environment: the invoker returns the parent mapping unchanged, the child
environment is a copy of the parent with `RESTIC_PASSWORD` injected, and
every key other than `RESTIC_PASSWORD` reads the same in the child as in
the parent. -/
theorem claim10_parent_env_unchanged (beh : EngineBehavior) (environ : Env)
    (url pw command : String) (args : List String) (idf : Option String) :
    (restic beh environ url pw command args idf).2.2 = environ ∧
    envCopy environ = environ ∧
    (restic beh environ url pw command args idf).2.1.env =
      envSet (envCopy environ) "RESTIC_PASSWORD" pw ∧
    (∀ k, k ≠ "RESTIC_PASSWORD" →
      envGet (restic beh environ url pw command args idf).2.1.env k = envGet environ k) := by
  refine ⟨rfl, rfl, rfl, ?_⟩
  intro k hk
  show envGet (envSet (envCopy environ) "RESTIC_PASSWORD" pw) k = envGet environ k
  exact envGet_set_ne environ "RESTIC_PASSWORD" k pw hk

theorem claim10_wit :
    (restic behOk [("PATH", "/bin")] "/r" "s3cr3t" "init" [] none).2.2 = [("PATH", "/bin")] ∧
    envGet (restic behOk [("PATH", "/bin")] "/r" "s3cr3t" "init" [] none).2.1.env "PATH" =
      envGet [("PATH", "/bin")] "PATH" := by
  refine ⟨(claim10_parent_env_unchanged behOk [("PATH", "/bin")] "/r" "s3cr3t" "init" [] none).1, ?_⟩
  exact (claim10_parent_env_unchanged behOk [("PATH", "/bin")] "/r" "s3cr3t" "init" []
    none).2.2.2 "PATH" (by decide)

/-- Claim C5: for repositories with method local and a non-empty path,
location resolution returns exactly the path; for sftp repositories with
non-empty path and host it returns sftp:user@host:path when the user is
set (non-empty) and sftp:host:path when the user is absent. -/
theorem claim5_get_url_wellformed (r : Repository) :
    (∀ p, r.method = "local" → r.path = some p → p ≠ "" → r.get_url = .ok p) ∧
    (∀ p h u, r.method = "sftp" → r.path = some p → p ≠ "" → r.host = some h → h ≠ "" →
      r.user = some u → u ≠ "" →
      r.get_url = .ok ("sftp:" ++ u ++ "@" ++ h ++ ":" ++ p)) ∧
    (∀ p h, r.method = "sftp" → r.path = some p → p ≠ "" → r.host = some h → h ≠ "" →
      r.user = none → r.get_url = .ok ("sftp:" ++ h ++ ":" ++ p)) := by
  refine ⟨?_, ?_, ?_⟩
  · intro p hm hp hne
    simp [Repository.get_url, hm, hp, truthy, hne]
  · intro p h u hm hp hpne hh hhne hu hune
    simp [Repository.get_url, hm, hp, hh, hu, truthy, hpne, hhne, hune]
  · intro p h hm hp hpne hh hhne hu
    simp [Repository.get_url, hm, hp, hh, hu, truthy, hpne, hhne]

theorem claim5_wit :
    repoA.get_url = .ok "/backup/a" ∧
    repoB.get_url = .ok "sftp:u@h.example:/b" ∧
    repoB0.get_url = .ok "sftp:h.example:/b" :=
  ⟨(claim5_get_url_wellformed repoA).1 "/backup/a" rfl rfl (by decide),
   (claim5_get_url_wellformed repoB).2.1 "/b" "h.example" "u" rfl rfl (by decide) rfl
     (by decide) rfl (by decide),
   (claim5_get_url_wellformed repoB0).2.2 "/b" "h.example" rfl rfl (by decide) rfl
     (by decide) rfl⟩

/-- Claim C6: location resolution fails with a `RepositoryError` exactly
when the path is falsy (any method), or the method is sftp and the host
is falsy, or the method is neither local nor sftp; and when it fails, no
engine subprocess is ever spawned. -/
theorem claim6_get_url_failure (r : Repository) :
    (isRepoErr r.get_url = true ↔
      (truthy r.path = false ∨ (r.method = "sftp" ∧ truthy r.host = false) ∨
        (r.method ≠ "local" ∧ r.method ≠ "sftp"))) ∧
    (∀ e, r.get_url = .error e → ∀ beh environ command args,
      (r.runRestic beh environ command args).2.1 = []) := by
  constructor
  · by_cases hm : r.method = "local"
    · cases htp : truthy r.path <;> simp [Repository.get_url, isRepoErr, hm, htp]
    · by_cases hm2 : r.method = "sftp"
      · cases htp : truthy r.path
        · simp [Repository.get_url, isRepoErr, hm, hm2, htp]
        · cases hth : truthy r.host
          · simp [Repository.get_url, isRepoErr, hm, hm2, htp, hth]
          · cases htu : truthy r.user <;>
              simp [Repository.get_url, isRepoErr, hm, hm2, htp, hth, htu]
      · simp [Repository.get_url, isRepoErr, hm, hm2]
  · intro e he beh environ command args
    rw [runRestic_err_url he beh environ command args]

theorem claim6_wit :
    isRepoErr repoBadM.get_url = true ∧
    (repoBadM.runRestic behOk [] "check" []).2.1 = [] :=
  ⟨(claim6_get_url_failure repoBadM).1.mpr (Or.inr (Or.inr ⟨by decide, by decide⟩)),
   (claim6_get_url_failure repoBadM).2
     (.repositoryError "Unsupported repository access method: ftp") rfl
     behOk [] "check" []⟩

/-- Claim C4 counterexample: for a repository with only `password_env`
set and the named variable absent from the environment, the failure is
not a `ConfigurationError` recoverable at the orchestrator level: the
code calls `fatal_error`, i.e. `sys.exit(1)`, and in a two-repository
`init` batch the process terminates before the second repository is
attempted (no engine call is ever made and the error escapes the
orchestrator). -/
theorem claim4_cex :
    repoPw.get_password [] = .error (.fatalExit 1) ∧
    (cmd_init behOk [] [repoPw, repoR2]).1 = .error (.fatalExit 1) ∧
    (cmd_init behOk [] [repoPw, repoR2]).2.1 = [] :=
  ⟨rfl, rfl, rfl⟩

/-- Claim C4 amended: `get_password` returns the inline secret whenever
it is set, regardless of `password_env`; returns the value of the named
environment variable when only `password_env` is set and that variable
exists; and when only `password_env` is set and the variable is absent
it terminates the whole process (`fatal_error` / `sys.exit 1`) — a
failure that is not caught by the orchestrator and aborts the entire
batch, not just the affected repository. -/
theorem claim4_get_password (r : Repository) (environ : Env) :
    (∀ p, r.password = some p → r.get_password environ = .ok p) ∧
    (∀ v x, r.password = none → r.password_env = some v → envGet environ v = some x →
      r.get_password environ = .ok x) ∧
    (∀ v, r.password = none → r.password_env = some v → envGet environ v = none →
      r.get_password environ = .error (.fatalExit 1)) ∧
    (∀ beh rest url, r.get_url = .ok url →
      r.get_password environ = .error (.fatalExit 1) →
      (cmd_init beh environ (r :: rest)).1 = .error (.fatalExit 1) ∧
      (cmd_init beh environ (r :: rest)).2.1 = []) := by
  refine ⟨?_, ?_, ?_, ?_⟩
  · intro p hp
    simp [Repository.get_password, hp]
  · intro v x hp hv hx
    simp [Repository.get_password, hp, hv, hx]
  · intro v hp hv hx
    simp [Repository.get_password, hp, hv, hx]
  · intro beh rest url hu hp
    have hr := runRestic_err_pw hu hp beh "init" []
    constructor
    · simp [cmd_init, hr, PyError.isRestic]
    · simp [cmd_init, hr, PyError.isRestic]

theorem claim4_wit :
    repoInline.get_password [] = .ok "pw1" ∧
    repoPw.get_password [("BACKUP_PW", "hunter2")] = .ok "hunter2" ∧
    repoPw.get_password [] = .error (.fatalExit 1) ∧
    (cmd_init behOk [] (repoPw :: [repoR2])).1 = .error (.fatalExit 1) :=
  ⟨(claim4_get_password repoInline []).1 "pw1" rfl,
   (claim4_get_password repoPw [("BACKUP_PW", "hunter2")]).2.1 "BACKUP_PW" "hunter2" rfl rfl
     (by decide),
   (claim4_get_password repoPw []).2.2.1 "BACKUP_PW" rfl rfl (by decide),
   ((claim4_get_password repoPw []).2.2.2 behOk [repoR2] "/p" rfl
     ((claim4_get_password repoPw []).2.2.1 "BACKUP_PW" rfl rfl (by decide))).1⟩

theorem combineOpt_nil (o : Option (List Operation)) : combineOpt o [] = o := by
  cases o with
  | none => rfl
  | some g => simp [combineOpt]

theorem combineOpt_step (o : Option (List Operation)) (b : Operation) (l : List Operation) :
    combineOpt (some (o.getD [] ++ [b])) l = combineOpt o (b :: l) := by
  cases o with
  | none => rfl
  | some g => simp [combineOpt]

theorem lookupGroup_insertJob (acc : List (Option String × List Operation)) (b : Operation)
    (h : Option String) :
    lookupGroup h (insertJob acc b) =
      if b.host = h then some ((lookupGroup h acc).getD [] ++ [b])
      else lookupGroup h acc := by
  induction acc with
  | nil =>
    by_cases hb : b.host = h <;> simp [insertJob, lookupGroup, hb]
  | cons a rest ih =>
    obtain ⟨h2, g⟩ := a
    by_cases h1 : h2 = b.host
    · subst h1
      by_cases hb : b.host = h <;> simp [insertJob, lookupGroup, hb]
    · simp only [insertJob, if_neg h1]
      by_cases hb2 : h2 = h
      · subst hb2
        simp [lookupGroup, Ne.symm h1]
      · simp [lookupGroup, hb2, ih]

theorem lookupGroup_foldl (bs : List Operation) (acc : List (Option String × List Operation))
    (h : Option String) :
    lookupGroup h (bs.foldl insertJob acc) =
      combineOpt (lookupGroup h acc) (bs.filter (fun b => b.host == h)) := by
  induction bs generalizing acc with
  | nil => simp [combineOpt_nil]
  | cons b bs ih =>
    rw [List.foldl_cons, ih, lookupGroup_insertJob]
    by_cases hb : b.host = h
    · simp [hb, combineOpt_step, List.filter_cons]
    · simp [hb, List.filter_cons]

theorem keys_insertJob (acc : List (Option String × List Operation)) (b : Operation) :
    (insertJob acc b).map Prod.fst =
      if (acc.map Prod.fst).contains b.host then acc.map Prod.fst
      else acc.map Prod.fst ++ [b.host] := by
  induction acc with
  | nil => simp [insertJob]
  | cons a rest ih =>
    obtain ⟨h2, g⟩ := a
    by_cases h1 : h2 = b.host
    · subst h1
      simp [insertJob]
    · have hne2 : ¬ b.host = h2 := Ne.symm h1
      simp only [insertJob, if_neg h1, List.map_cons, ih]
      cases hc : (List.map Prod.fst rest).contains b.host
      · have hx : ¬ b.host ∈ List.map Prod.fst rest := by simpa using hc
        simp [hc, hx, hne2]
      · have hx : b.host ∈ List.map Prod.fst rest := by simpa using hc
        simp [hc, hx]

theorem keys_foldl (bs : List Operation) (acc : List (Option String × List Operation)) :
    (bs.foldl insertJob acc).map Prod.fst =
      bs.foldl (fun ks b => if ks.contains b.host then ks else ks ++ [b.host])
        (acc.map Prod.fst) := by
  induction bs generalizing acc with
  | nil => rfl
  | cons b bs ih =>
    rw [List.foldl_cons, List.foldl_cons, ih, keys_insertJob]

theorem group_by_host_keys (bs : List Operation) :
    (group_by_host bs).map Prod.fst = dedupFirst (bs.map Operation.host) := by
  unfold group_by_host dedupFirst
  rw [keys_foldl, List.foldl_map]
  rfl

/-- Claim C7: `group_by_host` partitions the jobs: the group keys are the
distinct host values (including the no-host bucket) in order of first
appearance; the group stored under key `h` is exactly the input filtered
to the jobs with host `h`, in input order; and a job belongs to the group
of its own host and to no other group. -/
theorem claim7_group_by_host (bs : List Operation) :
    ((group_by_host bs).map Prod.fst = dedupFirst (bs.map Operation.host)) ∧
    (∀ h, lookupGroup h (group_by_host bs) =
      combineOpt none (bs.filter (fun b => b.host == h))) ∧
    (∀ b h, (∃ g, lookupGroup h (group_by_host bs) = some g ∧ b ∈ g) ↔
      (b ∈ bs ∧ h = b.host)) := by
  have hc : ∀ h, lookupGroup h (group_by_host bs) =
      combineOpt none (bs.filter (fun b2 => b2.host == h)) := by
    intro h
    unfold group_by_host
    rw [lookupGroup_foldl]
    rfl
  refine ⟨group_by_host_keys bs, hc, ?_⟩
  intro b h
  constructor
  · rintro ⟨g, hg, hbg⟩
    rw [hc h] at hg
    rcases hl : bs.filter (fun b2 => b2.host == h) with _ | ⟨x, xs⟩
    · rw [hl] at hg
      exact Option.noConfusion hg
    · rw [hl] at hg
      simp only [combineOpt] at hg
      injection hg with hg2
      subst hg2
      rw [← hl] at hbg
      have hb2 := List.mem_filter.mp hbg
      refine ⟨hb2.1, ?_⟩
      have hb3 := hb2.2
      simp at hb3
      exact hb3.symm
  · rintro ⟨hbs, rfl⟩
    rw [hc b.host]
    have hbf : b ∈ bs.filter (fun b2 => b2.host == b.host) :=
      List.mem_filter.mpr ⟨hbs, by simp⟩
    rcases hl : bs.filter (fun b2 => b2.host == b.host) with _ | ⟨x, xs⟩
    · rw [hl] at hbf
      cases hbf
    · rw [hl] at hbf
      rw [hl]
      exact ⟨x :: xs, rfl, hbf⟩

theorem cmd_init_all_ok (beh : EngineBehavior) (environ : Env) (rs : List Repository)
    (h : ∀ r ∈ rs, (r.runRestic beh environ "init" []).1 = .ok ()) :
    cmd_init beh environ rs =
      (.ok (rs.map Repository.name, []),
       rs.flatMap (fun r => (r.runRestic beh environ "init" []).2.1), environ) := by
  induction rs with
  | nil => rfl
  | cons r rest ih =>
    have ih2 := ih (fun r2 hr2 => h r2 (List.mem_cons_of_mem r hr2))
    rcases hrr : r.runRestic beh environ "init" [] with ⟨res, t, env2⟩
    have hr : res = .ok () := by
      have h3 := h r (List.mem_cons_self r rest)
      rw [hrr] at h3
      exact h3
    have henv : env2 = environ := by
      have h3 := runRestic_environ r beh environ "init" []
      rw [hrr] at h3
      exact h3
    subst hr
    subst henv
    simp only [cmd_init, hrr, ih2, List.map_cons, List.flatMap_cons]

theorem flatMap_length_one {α β : Type} (l : List α) (f : α → List β)
    (h : ∀ a ∈ l, (f a).length = 1) : (l.flatMap f).length = l.length := by
  induction l with
  | nil => rfl
  | cons a l ih =>
    rw [List.flatMap_cons, List.length_append, h a (List.mem_cons_self a l),
      ih (fun a2 h2 => h a2 (List.mem_cons_of_mem a h2))]
    simp [Nat.add_comm]

/-- Claim C8: in initialize-all over `pre ++ K :: post`, where the engine
invocation succeeds for every repository except `K` and raises a
`ResticError` (EngineError) for `K`, the orchestrator completes the
batch, attempting every repository exactly once (one engine call per
repository, in declaration order), and afterwards exactly `K.name` is in
the failure list while the other names are in the success list. -/
theorem claim8_init_failure_isolation (beh : EngineBehavior) (environ : Env)
    (pre post : List Repository) (K : Repository)
    (hpre : ∀ r ∈ pre, (r.runRestic beh environ "init" []).1 = .ok ())
    (hpost : ∀ r ∈ post, (r.runRestic beh environ "init" []).1 = .ok ())
    (hK : isResticFail (K.runRestic beh environ "init" []).1 = true) :
    (cmd_init beh environ (pre ++ K :: post)).1 =
      .ok ((pre ++ post).map Repository.name, [K.name]) ∧
    (cmd_init beh environ (pre ++ K :: post)).2.1 =
      (pre ++ K :: post).flatMap (fun r => (r.runRestic beh environ "init" []).2.1) ∧
    (cmd_init beh environ (pre ++ K :: post)).2.1.length =
      pre.length + 1 + post.length := by
  have main : cmd_init beh environ (pre ++ K :: post) =
      (.ok ((pre ++ post).map Repository.name, [K.name]),
       (pre ++ K :: post).flatMap (fun r => (r.runRestic beh environ "init" []).2.1),
       environ) := by
    induction pre with
    | nil =>
      rcases hrr : K.runRestic beh environ "init" [] with ⟨res, t, env2⟩
      have henv : env2 = environ := by
        have h3 := runRestic_environ K beh environ "init" []
        rw [hrr] at h3
        exact h3
      rw [henv] at hrr
      have hKf : isResticFail res = true := by
        rw [hrr] at hK
        exact hK
      cases res with
      | ok v => exact absurd hKf (by simp [isResticFail])
      | error e =>
        have he : e.isRestic = true := hKf
        have hrest := cmd_init_all_ok beh environ post hpost
        simp [cmd_init, hrr, he, hrest, List.append_eq]
    | cons p pre2 ih =>
      have ih2 := ih (fun r2 h2 => hpre r2 (List.mem_cons_of_mem p h2))
      rcases hrr : p.runRestic beh environ "init" [] with ⟨res, t, env2⟩
      have hr : res = .ok () := by
        have h3 := hpre p (List.mem_cons_self p pre2)
        rw [hrr] at h3
        exact h3
      have henv : env2 = environ := by
        have h3 := runRestic_environ p beh environ "init" []
        rw [hrr] at h3
        exact h3
      subst hr
      rw [henv] at hrr
      simp [cmd_init, hrr, ih2, List.append_eq]
  have hlen : ∀ r ∈ pre ++ K :: post,
      ((r.runRestic beh environ "init" []).2.1).length = 1 := by
    intro r hr
    rcases List.mem_append.mp hr with h1 | h2
    · obtain ⟨u, pw, _, _, ht⟩ :=
        runRestic_trace_of_engine r beh environ "init" [] (Or.inl (hpre r h1))
      rw [ht]
      rfl
    · rcases List.mem_cons.mp h2 with rfl | h3
      · obtain ⟨u, pw, _, _, ht⟩ :=
          runRestic_trace_of_engine r beh environ "init" [] (Or.inr hK)
        rw [ht]
        rfl
      · obtain ⟨u, pw, _, _, ht⟩ :=
          runRestic_trace_of_engine r beh environ "init" [] (Or.inl (hpost r h3))
        rw [ht]
        rfl
  refine ⟨by rw [main], by rw [main], ?_⟩
  rw [main]
  show ((pre ++ K :: post).flatMap
    (fun r => (r.runRestic beh environ "init" []).2.1)).length = pre.length + 1 + post.length
  rw [flatMap_length_one _ _ hlen]
  simp [List.length_append]
  omega

theorem claim8_wit :
    (cmd_init behK [] [repoR, repoK, repoR2]).1 = .ok (["r", "r2"], ["k"]) ∧
    (cmd_init behK [] [repoR, repoK, repoR2]).2.1.length = 3 := by
  have h := claim8_init_failure_isolation behK [] [repoR] [repoR2] repoK
    (by
      intro r hr
      simp at hr
      subst hr
      rfl)
    (by
      intro r hr
      simp at hr
      subst hr
      rfl)
    rfl
  exact ⟨h.1, h.2.2⟩

/-- Claim C3 counterexample: in check-all, a per-repository `EngineError`
is not caught at the orchestrator boundary: with two repositories and an
engine that fails every call, the first failure propagates out of
`cmd_check` and the second repository is never attempted (one engine
call in the whole batch). -/
theorem claim3_cex :
    (cmd_check behFail [] [repoR, repoR2]).1 = .error (.resticError "check" 1) ∧
    (cmd_check behFail [] [repoR, repoR2]).2.1.length = 1 :=
  ⟨rfl, rfl⟩

/-- Claim C3 amended: only initialize-all catches per-repository errors,
and it catches only `ResticError` (EngineError).  Any error in
check-all, any non-EngineError (such as `RepositoryError`) in
initialize-all, and any error in backup-all propagate out of the
orchestrator and abort the iteration over the remaining repositories. -/
theorem claim3_error_propagation :
    (∀ (beh : EngineBehavior) (environ : Env) (r : Repository) (rest : List Repository)
        (e : PyError),
      (r.runRestic beh environ "check" []).1 = .error e →
      (cmd_check beh environ (r :: rest)).1 = .error e ∧
      (cmd_check beh environ (r :: rest)).2.1 = (r.runRestic beh environ "check" []).2.1) ∧
    (∀ (beh : EngineBehavior) (environ : Env) (r : Repository) (rest : List Repository)
        (e : PyError),
      (r.runRestic beh environ "init" []).1 = .error e → e.isRestic = false →
      (cmd_init beh environ (r :: rest)).1 = .error e ∧
      (cmd_init beh environ (r :: rest)).2.1 = (r.runRestic beh environ "init" []).2.1) ∧
    (∀ (beh : EngineBehavior) (environ : Env) (repo : Repository) (rest : List Repository)
        (groups : List (Option String × List Operation)) (e : PyError),
      (backupHosts beh environ repo groups).1 = .error e →
      (backupRepos beh environ groups (repo :: rest)).1 = .error e ∧
      (backupRepos beh environ groups (repo :: rest)).2.1 =
        (backupHosts beh environ repo groups).2.1) := by
  refine ⟨?_, ?_, ?_⟩
  · intro beh environ r rest e he
    rcases hrr : r.runRestic beh environ "check" [] with ⟨res, t, env2⟩
    have hr : res = .error e := by
      rw [hrr] at he
      exact he
    subst hr
    simp [cmd_check, hrr]
  · intro beh environ r rest e he hne
    rcases hrr : r.runRestic beh environ "init" [] with ⟨res, t, env2⟩
    have hr : res = .error e := by
      rw [hrr] at he
      exact he
    subst hr
    simp [cmd_init, hrr, hne]
  · intro beh environ repo rest groups e he
    rcases hrr : backupHosts beh environ repo groups with ⟨res, t, env2⟩
    have hr : res = .error e := by
      rw [hrr] at he
      exact he
    subst hr
    simp [backupRepos, hrr]

theorem claim3_wit :
    (cmd_init behOk [] (repoBadM :: [repoR2])).1 =
      .error (.repositoryError "Unsupported repository access method: ftp") ∧
    (cmd_init behOk [] (repoBadM :: [repoR2])).2.1 =
      (repoBadM.runRestic behOk [] "init" []).2.1 :=
  claim3_error_propagation.2.1 behOk [] repoBadM [repoR2]
    (.repositoryError "Unsupported repository access method: ftp") rfl rfl

theorem runRestic_trace_cmd (r : Repository) (beh : EngineBehavior) (environ : Env)
    (command : String) (args : List String) :
    ∀ call ∈ (r.runRestic beh environ command args).2.1, call.cmd[3]? = some command := by
  intro call hc
  cases hu : r.get_url with
  | error e =>
    rw [runRestic_err_url hu beh environ command args] at hc
    simp at hc
  | ok url =>
    cases hp : r.get_password environ with
    | error e =>
      rw [runRestic_err_pw hu hp beh command args] at hc
      simp at hc
    | ok pw =>
      rw [runRestic_resolved hu hp beh command args] at hc
      simp at hc
      subst hc
      exact resticCall_cmd_get environ url pw command args r.identity_file

theorem backupHosts_calls (beh : EngineBehavior) (repo : Repository)
    (groups : List (Option String × List Operation)) :
    ∀ (environ : Env) (call : EngineCall),
      call ∈ (backupHosts beh environ repo groups).2.1 → call.cmd[3]? = some "backup" := by
  induction groups with
  | nil =>
    intro environ call hc
    simp [backupHosts] at hc
  | cons g rest ih =>
    intro environ call hc
    obtain ⟨h, js⟩ := g
    rcases hrr : repo.runRestic beh environ "backup"
        (backupArgs ((js.filter (fun b => b.repos.contains repo.name)).map Operation.path) h)
      with ⟨res, t, env2⟩
    simp only [backupHosts] at hc
    rw [hrr] at hc
    cases res with
    | ok v =>
      simp at hc
      rcases hc with h1 | h2
      · refine runRestic_trace_cmd repo beh environ "backup"
          (backupArgs ((js.filter (fun b => b.repos.contains repo.name)).map Operation.path) h)
          call ?_
        rw [hrr]
        simpa using h1
      · exact ih env2 call h2
    | error e =>
      simp at hc
      refine runRestic_trace_cmd repo beh environ "backup"
        (backupArgs ((js.filter (fun b => b.repos.contains repo.name)).map Operation.path) h)
        call ?_
      rw [hrr]
      simpa using hc

theorem backupRepos_calls (beh : EngineBehavior)
    (groups : List (Option String × List Operation)) (repos : List Repository) :
    ∀ (environ : Env) (call : EngineCall),
      call ∈ (backupRepos beh environ groups repos).2.1 → call.cmd[3]? = some "backup" := by
  induction repos with
  | nil =>
    intro environ call hc
    simp [backupRepos] at hc
  | cons r rest ih =>
    intro environ call hc
    rcases hrr : backupHosts beh environ r groups with ⟨res, t, env2⟩
    simp only [backupRepos] at hc
    rw [hrr] at hc
    cases res with
    | ok v =>
      simp at hc
      rcases hc with h1 | h2
      · refine backupHosts_calls beh r groups environ call ?_
        rw [hrr]
        simpa using h1
      · exact ih env2 call h2
    | error e =>
      simp at hc
      refine backupHosts_calls beh r groups environ call ?_
      rw [hrr]
      simpa using hc

/-- Claim C1 counterexample: under an engine for which every `check` and
`init` call fails (only `backup` succeeds), backup-all still issues
exactly one engine call, a backup (which succeeds), and issues no check
and no initialize call at all: the claimed check, initialize-retry,
recheck sequence does not exist, and backup is invoked even though the
health check of the repository would fail. -/
theorem claim1_cex :
    (cmd_backup behNoBk [] [repoR] [jobJ]).2.1 =
      [⟨["restic", "-r", "/r", "backup", "/d"], [("RESTIC_PASSWORD", "123")]⟩] ∧
    (cmd_backup behNoBk [] [repoR] [jobJ]).1 = .ok () :=
  ⟨by decide, rfl⟩

/-- Claim C1 amended: backup-all performs no health check and no
initialize at all: every engine call issued by `cmd_backup` is a
`backup` command (position 3 of every spawned argument vector is
`backup`), and backup is invoked for each (repository, host-group) pair
regardless of repository health. -/
theorem claim1_no_check_before_backup (beh : EngineBehavior) (environ : Env)
    (repos : List Repository) (backups : List Operation) :
    ∀ call ∈ (cmd_backup beh environ repos backups).2.1, call.cmd[3]? = some "backup" := by
  intro call hc
  exact backupRepos_calls beh (group_by_host backups) repos environ call hc

theorem claim1_wit :
    (⟨["restic", "-r", "/r", "backup", "/d"],
      [("RESTIC_PASSWORD", "123")]⟩ : EngineCall).cmd[3]? = some "backup" :=
  claim1_no_check_before_backup behNoBk [] [repoR] [jobJ]
    ⟨["restic", "-r", "/r", "backup", "/d"], [("RESTIC_PASSWORD", "123")]⟩ (by decide)

theorem backupHosts_ok_length (beh : EngineBehavior) (repo : Repository)
    (groups : List (Option String × List Operation)) :
    ∀ environ : Env, (backupHosts beh environ repo groups).1 = .ok () →
      (backupHosts beh environ repo groups).2.1.length = groups.length := by
  induction groups with
  | nil =>
    intro environ _
    rfl
  | cons g rest ih =>
    intro environ hok
    obtain ⟨h, js⟩ := g
    rcases hrr : repo.runRestic beh environ "backup"
        (backupArgs ((js.filter (fun b => b.repos.contains repo.name)).map Operation.path) h)
      with ⟨res, t, env2⟩
    simp only [backupHosts] at hok ⊢
    rw [hrr] at hok ⊢
    cases res with
    | error e => simp at hok
    | ok v =>
      cases v
      simp at hok
      have ht : t.length = 1 := by
        obtain ⟨u, pw, _, _, htr⟩ := runRestic_trace_of_engine repo beh environ "backup"
          (backupArgs ((js.filter (fun b => b.repos.contains repo.name)).map Operation.path) h)
          (Or.inl (by rw [hrr]))
        rw [hrr] at htr
        simp at htr
        rw [htr]
        rfl
      have ht2 := ih env2 hok
      show (t ++ (backupHosts beh env2 repo rest).2.1).length = ((h, js) :: rest).length
      rw [List.length_append, ht, ht2]
      simp [Nat.add_comm]

theorem backupRepos_ok_length (beh : EngineBehavior)
    (groups : List (Option String × List Operation)) (repos : List Repository) :
    ∀ environ : Env, (backupRepos beh environ groups repos).1 = .ok () →
      (backupRepos beh environ groups repos).2.1.length = repos.length * groups.length := by
  induction repos with
  | nil =>
    intro environ _
    simp [backupRepos]
  | cons r rest ih =>
    intro environ hok
    rcases hrr : backupHosts beh environ r groups with ⟨res, t, env2⟩
    simp only [backupRepos] at hok ⊢
    rw [hrr] at hok ⊢
    cases res with
    | error e => simp at hok
    | ok v =>
      cases v
      simp at hok
      have ht : t.length = groups.length := by
        have h3 := backupHosts_ok_length beh r groups environ (by rw [hrr])
        rw [hrr] at h3
        simpa using h3
      have ht2 := ih env2 hok
      show (t ++ (backupRepos beh env2 groups rest).2.1).length =
        (r :: rest).length * groups.length
      rw [List.length_append, ht, ht2, List.length_cons, Nat.succ_mul]
      exact Nat.add_comm _ _

/-- Claim C2 counterexample: in the end-to-end scenario of the spec
(repositories A and B; job1 backing `/data/x` to A and B with no host,
job2 backing `/data/y` to B with host prod), the engine is invoked four
times, not three: backup is issued for every (repository, host-group)
pair even when the job list for the pair is empty. -/
theorem claim2_cex :
    (cmd_backup behOk [] [repoA, repoB] [job1, job2]).2.1.length = 4 := by
  decide

/-- Claim C2 amended: backup-all invokes the engine backup once per
(repository, host-group) pair unconditionally — not only when the job
list of the pair is non-empty — one invocation carrying all source
paths of the pair, with `--host` appended when the host tag is present.
In the end-to-end scenario this yields four invocations: A with
`/data/x`, A with no paths and `--host prod`, B with `/data/x`, and B
with `/data/y --host prod`; in general a fully successful run makes
exactly `repos.length * number-of-host-groups` engine calls. -/
theorem claim2_backup_per_pair :
    ((cmd_backup behOk [] [repoA, repoB] [job1, job2]).2.1 =
      [⟨["restic", "-r", "/backup/a", "backup", "/data/x"], [("RESTIC_PASSWORD", "123")]⟩,
       ⟨["restic", "-r", "/backup/a", "backup", "--host", "prod"],
         [("RESTIC_PASSWORD", "123")]⟩,
       ⟨["restic", "-r", "sftp:u@h.example:/b", "backup", "/data/x"],
         [("RESTIC_PASSWORD", "123")]⟩,
       ⟨["restic", "-r", "sftp:u@h.example:/b", "backup", "/data/y", "--host", "prod"],
         [("RESTIC_PASSWORD", "123")]⟩]) ∧
    (∀ (beh : EngineBehavior) (environ : Env) (repos : List Repository)
        (backups : List Operation),
      (cmd_backup beh environ repos backups).1 = .ok () →
      (cmd_backup beh environ repos backups).2.1.length =
        repos.length * (group_by_host backups).length) := by
  constructor
  · decide
  · intro beh environ repos backups hok
    exact backupRepos_ok_length beh (group_by_host backups) repos environ hok

theorem claim2_wit :
    (cmd_backup behOk [] [repoA, repoB] [job1, job2]).1 = .ok () ∧
    (cmd_backup behOk [] [repoA, repoB] [job1, job2]).2.1.length = 2 * 2 :=
  ⟨rfl, claim2_backup_per_pair.2 behOk [] [repoA, repoB] [job1, job2] rfl⟩
